import Mathlib

/-!
Verification of the SOLAR-CRM prototype (src/src/App.tsx).

The development shallowly embeds the two verifiable pieces of the
application: the roof-area estimator (`approxPolyArea` and its driving
workflow `aiRoofAreaFromPolys`) and the pipeline card store
(`createCard`, `moveCard`, `updateSelected`).  JavaScript numbers are
modelled as real numbers; the random identifier produced by
`Math.random().toString(36).slice(2, 8)` is modelled as an arbitrary
string parameter; the log entry pushed by the roof-area workflow is
modelled by an inductive message type distinguishing the "draw a
polygon" prompt from a numeric estimate.
-/

noncomputable section

open scoped BigOperators

/-- A `{ lat, lng }` point in degrees, as produced by the map surface. -/
structure GeoPoint where
  lat : ℝ
  lng : ℝ

/-- A drawn polygon: `{ path: { lat, lng }[] }`. -/
structure Polygon where
  path : List GeoPoint

/-- `const R = 6378137` — the Earth radius used by `approxPolyArea`. -/
def R : ℝ := 6378137

/-- `toXY`: equirectangular-style projection used inside `approxPolyArea`:
`x = (lng·π/180)·R·cos(lat·π/180)`, `y = (lat·π/180)·R`. -/
def toXY (p : GeoPoint) : ℝ × ℝ :=
  ((p.lng * Real.pi / 180) * R * Real.cos (p.lat * Real.pi / 180),
   (p.lat * Real.pi / 180) * R)

/-- One loop-body summand of `approxPolyArea`:
`pts[i].x * pts[j].y - pts[j].x * pts[i].y`. -/
def shoelaceTerm (a b : ℝ × ℝ) : ℝ := a.1 * b.2 - b.1 * a.2

/-- The accumulation loop of `approxPolyArea`: for `i` below `pts.length`,
with `j = (i + 1) % pts.length`, sum `pts[i].x*pts[j].y - pts[j].x*pts[i].y`. -/
def shoelaceLoop (pts : List (ℝ × ℝ)) : ℝ :=
  ∑ i in Finset.range pts.length,
    shoelaceTerm (pts.getD i (0, 0)) (pts.getD ((i + 1) % pts.length) (0, 0))

/-- `approxPolyArea(path)`: `0` when fewer than 3 points, otherwise
`Math.abs(sum) / 2` of the shoelace loop over the projected points. -/
def approxPolyArea (path : List GeoPoint) : ℝ :=
  if path.length < 3 then 0 else |shoelaceLoop (path.map toXY)| / 2

/-- The spec's projected x coordinate: `longitude(rad) × 6378137 × cos(latitude(rad))`.
Written from the spec's words, for comparison with `toXY`. -/
def specProjX (p : GeoPoint) : ℝ :=
  (p.lng * Real.pi / 180) * 6378137 * Real.cos (p.lat * Real.pi / 180)

/-- The spec's projected y coordinate: `latitude(rad) × 6378137`.
Written from the spec's words, for comparison with `toXY`. -/
def specProjY (p : GeoPoint) : ℝ :=
  (p.lat * Real.pi / 180) * 6378137

/-- The spec's cyclic shoelace sum over the projected points:
`sum over i of x_i·y_{i+1} − x_{i+1}·y_i`, index `i+1` modulo the point
count.  Written from the spec's words, for comparison with the code. -/
def specShoelaceSum (path : List GeoPoint) : ℝ :=
  ∑ i in Finset.range path.length,
    (specProjX (path.getD i ⟨0, 0⟩) *
        specProjY (path.getD ((i + 1) % path.length) ⟨0, 0⟩) -
      specProjX (path.getD ((i + 1) % path.length) ⟨0, 0⟩) *
        specProjY (path.getD i ⟨0, 0⟩))

/-- `polys.reduce((acc, p) => acc + approxPolyArea(p.path), 0)` in
`aiRoofAreaFromPolys`. -/
def totalArea (polys : List Polygon) : ℝ :=
  polys.foldl (fun acc p => acc + approxPolyArea p.path) 0

/-- `Math.floor(area / 1.8)` — estimated panel count. -/
def estPanels (area : ℝ) : ℤ := ⌊area / 1.8⌋

/-- `estPanels * 0.42` — estimated capacity in kWp. -/
def estkWp (area : ℝ) : ℝ := (estPanels area : ℝ) * 0.42

/-- The log entry pushed by `aiRoofAreaFromPolys`: either the
"Draw at least one polygon on the map." prompt, or the numeric
area/panels/capacity estimate line. -/
inductive RoofAreaMsg
  | prompt
  | estimate (area : ℝ) (panels : ℤ) (kWp : ℝ)

/-- `aiRoofAreaFromPolys`: with no polygons, log the prompt and return;
otherwise log the estimate computed from the summed area. -/
def aiRoofAreaFromPolys (polys : List Polygon) : RoofAreaMsg :=
  if polys.length = 0 then RoofAreaMsg.prompt
  else
    RoofAreaMsg.estimate (totalArea polys) (estPanels (totalArea polys))
      (estkWp (totalArea polys))

/-- Open (non-cyclic) chain of shoelace terms over consecutive pairs;
proof device relating the cyclic loop to list structure. -/
def chainSum : List (ℝ × ℝ) → ℝ
  | a :: b :: t => shoelaceTerm a b + chainSum (b :: t)
  | _ => 0

/-- The golden-value triangle from the spec's regression scenario. -/
def goldenTriangle : List GeoPoint :=
  [⟨51.5074, -0.1278⟩, ⟨51.5075, -0.1278⟩, ⟨51.5074, -0.1277⟩]

/-- The golden triangle as a drawn polygon. -/
def goldenPoly : Polygon := ⟨goldenTriangle⟩

/-- A polygon with an empty path (zero area but a nonempty polygon set). -/
def emptyPoly : Polygon := ⟨[]⟩

/-- `Mode`: `"domestic" | "commercial"`. -/
inductive Mode
  | domestic
  | commercial
deriving DecidableEq

/-- The `id` component of the `STAGES` entries. -/
inductive StageId
  | lead
  | survey
  | proposal
  | contract
  | install
  | commissioned
deriving DecidableEq

/-- One entry of the `STAGES` constant. -/
structure StageInfo where
  id : StageId
  label : String

/-- The fixed ordered `STAGES` list. -/
def STAGES : List StageInfo :=
  [⟨.lead, "Lead"⟩, ⟨.survey, "Survey"⟩, ⟨.proposal, "Proposal"⟩,
   ⟨.contract, "Contract"⟩, ⟨.install, "Install"⟩, ⟨.commissioned, "Commissioned"⟩]

/-- A pipeline record (`Card`). -/
structure Card where
  id : String
  title : String
  mode : Mode
  kWp : ℝ
  contact : String
  phone : String
  email : String
  address : String
  stage : StageId

/-- `createCard`'s new card, with the `Math.random()`-derived identifier
modelled as the parameter `rndId`. -/
def createCard (rndId : String) (mode : Mode) : Card :=
  { id := rndId
    title := if mode = Mode.domestic then "New Residence" else "New Business"
    mode := mode
    kWp := if mode = Mode.domestic then 4 else 50
    contact := ""
    phone := ""
    email := ""
    address := ""
    stage := StageId.lead }

/-- The store update performed by `createCard`:
`setCards((c) => [newCard, ...c])`. -/
def addRecord (cards : List Card) (rndId : String) (mode : Mode) : List Card :=
  createCard rndId mode :: cards

/-- `moveCard`: map over the store, setting the stage of every card whose
identifier matches. -/
def moveCard (cards : List Card) (cardId : String) (stageId : StageId) : List Card :=
  cards.map fun c => if c.id = cardId then { c with stage := stageId } else c

/-- A `Partial<Card>` patch: absent fields are `none`. -/
structure CardPatch where
  id : Option String := none
  title : Option String := none
  mode : Option Mode := none
  kWp : Option ℝ := none
  contact : Option String := none
  phone : Option String := none
  email : Option String := none
  address : Option String := none
  stage : Option StageId := none

/-- The spread `{ ...c, ...patch }`: each field present in the patch
overwrites the card's field. -/
def applyPatch (c : Card) (p : CardPatch) : Card :=
  { id := p.id.getD c.id
    title := p.title.getD c.title
    mode := p.mode.getD c.mode
    kWp := p.kWp.getD c.kWp
    contact := p.contact.getD c.contact
    phone := p.phone.getD c.phone
    email := p.email.getD c.email
    address := p.address.getD c.address
    stage := p.stage.getD c.stage }

/-- `updateSelected`: look up the selected card (`sel`) by identifier;
if absent do nothing, else merge the patch into every card whose
identifier equals `sel.id`. -/
def updateSelected (cards : List Card) (selectedId : Option String)
    (patch : CardPatch) : List Card :=
  match selectedId.bind (fun sid => cards.find? (fun c => c.id == sid)) with
  | none => cards
  | some sel => cards.map fun c => if c.id = sel.id then applyPatch c patch else c

/-- First card of the `SAMPLE` store. -/
def sample1 : Card :=
  ⟨"c1", "Acme Bakery", .commercial, 120, "Sam Patel", "+44 20 7123 4567",
    "sam@acmebakery.co.uk", "221B Baker St, London", .lead⟩

/-- Second card of the `SAMPLE` store. -/
def sample2 : Card :=
  ⟨"c2", "Jones Residence", .domestic, 6.4, "Kerry Jones", "+44 7400 111222",
    "kerry@example.com", "10 Downing St, London", .survey⟩

/-- Third card of the `SAMPLE` store. -/
def sample3 : Card :=
  ⟨"c3", "GreenGym", .commercial, 85, "Lee Wong", "+44 161 555 0909",
    "lee@greengym.com", "Oxford Rd, Manchester", .proposal⟩

/-- The `SAMPLE` seed store. -/
def SAMPLE : List Card := [sample1, sample2, sample3]

/-- A store holding one card created earlier from random string "abcdef";
a later `Math.random()` call may produce the same string again. -/
def collidedStore : List Card := [createCard "abcdef" Mode.domestic]

end

/-! ### Helper lemmas -/

theorem shoelaceTerm_swap (a b : ℝ × ℝ) : shoelaceTerm a b = -shoelaceTerm b a := by
  simp only [shoelaceTerm]; ring

theorem chainSum_nil : chainSum [] = 0 := rfl

theorem chainSum_single (a : ℝ × ℝ) : chainSum [a] = 0 := rfl

theorem chainSum_cons_cons (a b : ℝ × ℝ) (t : List (ℝ × ℝ)) :
    chainSum (a :: b :: t) = shoelaceTerm a b + chainSum (b :: t) := rfl

theorem chainSum_eq_sum (l : List (ℝ × ℝ)) :
    ∑ i in Finset.range (l.length - 1),
      shoelaceTerm (l.getD i (0, 0)) (l.getD (i + 1) (0, 0)) = chainSum l := by
  induction l with
  | nil => simp [chainSum_nil]
  | cons a t ih =>
    cases t with
    | nil => simp [chainSum_single]
    | cons b t' =>
      have hlen : (a :: b :: t').length - 1 = t'.length + 1 := by simp
      have hlen' : (b :: t').length - 1 = t'.length := by simp
      rw [hlen, Finset.sum_range_succ']
      simp only [List.getD_cons_succ, List.getD_cons_zero]
      rw [hlen'] at ih
      simp only [List.getD_cons_succ] at ih
      rw [chainSum_cons_cons, ← ih]
      exact add_comm _ _

theorem getD_append_last (l : List (ℝ × ℝ)) (x : ℝ × ℝ) :
    (l ++ [x]).getD ((l ++ [x]).length - 1) (0, 0) = x := by
  induction l with
  | nil => simp
  | cons a t ih =>
    have hl : (a :: (t ++ [x])).length - 1 = (t ++ [x]).length - 1 + 1 := by
      simp [List.length_append]
    rw [List.cons_append, hl, List.getD_cons_succ, ih]

theorem shoelaceLoop_closed (l : List (ℝ × ℝ)) (h : l ≠ []) :
    shoelaceLoop l =
      chainSum l + shoelaceTerm (l.getD (l.length - 1) (0, 0)) (l.getD 0 (0, 0)) := by
  obtain ⟨m, hm⟩ : ∃ m, l.length = m + 1 :=
    ⟨l.length - 1, (Nat.succ_pred_eq_of_pos (List.length_pos.2 h)).symm⟩
  rw [shoelaceLoop, hm, Nat.add_sub_cancel, Finset.sum_range_succ, Nat.mod_self]
  have hmain :
      ∑ i in Finset.range m,
        shoelaceTerm (l.getD i (0, 0)) (l.getD ((i + 1) % (m + 1)) (0, 0)) =
      ∑ i in Finset.range m,
        shoelaceTerm (l.getD i (0, 0)) (l.getD (i + 1) (0, 0)) := by
    refine Finset.sum_congr rfl fun i hi => ?_
    have hi' := Finset.mem_range.1 hi
    rw [Nat.mod_eq_of_lt (by omega : i + 1 < m + 1)]
  rw [hmain]
  have hcs := chainSum_eq_sum l
  rw [hm, Nat.add_sub_cancel] at hcs
  rw [hcs]

theorem chainSum_append (l : List (ℝ × ℝ)) (x : ℝ × ℝ) (h : l ≠ []) :
    chainSum (l ++ [x]) =
      chainSum l + shoelaceTerm (l.getD (l.length - 1) (0, 0)) x := by
  induction l with
  | nil => cases h rfl
  | cons a t ih =>
    cases t with
    | nil => simp [chainSum_cons_cons, chainSum_single, chainSum_nil]
    | cons b t' =>
      have ihbt := ih (by simp)
      have h1 : chainSum ((a :: b :: t') ++ [x]) =
          shoelaceTerm a b + chainSum ((b :: t') ++ [x]) := rfl
      have h2 : chainSum (a :: b :: t') =
          shoelaceTerm a b + chainSum (b :: t') := rfl
      have h3 : (a :: b :: t').getD ((a :: b :: t').length - 1) (0, 0) =
          (b :: t').getD ((b :: t').length - 1) (0, 0) := by
        have hl : (a :: b :: t').length - 1 = ((b :: t').length - 1) + 1 := by simp
        rw [hl, List.getD_cons_succ]
      rw [h1, ihbt, h2, h3]
      ring

theorem shoelaceLoop_rotate_one (l : List (ℝ × ℝ)) :
    shoelaceLoop (l.rotate 1) = shoelaceLoop l := by
  cases l with
  | nil => rfl
  | cons a t =>
    rw [show (1 : ℕ) = 0 + 1 from rfl, List.rotate_cons_succ, List.rotate_zero]
    cases t with
    | nil => rfl
    | cons b t' =>
      have hne : (b :: t') ≠ ([] : List (ℝ × ℝ)) := by simp
      rw [shoelaceLoop_closed ((b :: t') ++ [a]) (by simp),
        shoelaceLoop_closed (a :: b :: t') (by simp)]
      rw [getD_append_last, chainSum_append (b :: t') a hne]
      have hhead : ((b :: t') ++ [a]).getD 0 (0, 0) = b := rfl
      have hD : (a :: b :: t').getD ((a :: b :: t').length - 1) (0, 0) =
          (b :: t').getD ((b :: t').length - 1) (0, 0) := by
        have : (a :: b :: t').length - 1 = ((b :: t').length - 1) + 1 := by simp
        rw [this, List.getD_cons_succ]
      rw [hhead, hD, chainSum_cons_cons]
      have hD0 : (a :: b :: t').getD 0 (0, 0) = a := rfl
      rw [hD0]
      ring

theorem shoelaceLoop_rotate (l : List (ℝ × ℝ)) (n : ℕ) :
    shoelaceLoop (l.rotate n) = shoelaceLoop l := by
  induction n generalizing l with
  | zero => rw [List.rotate_zero]
  | succ n ih =>
    have : l.rotate (n + 1) = (l.rotate 1).rotate n := by
      rw [List.rotate_rotate, Nat.add_comm]
    rw [this, ih, shoelaceLoop_rotate_one]

theorem getD_reverse_last (l : List (ℝ × ℝ)) (h : l ≠ []) :
    l.reverse.getD (l.reverse.length - 1) (0, 0) = l.getD 0 (0, 0) := by
  cases l with
  | nil => cases h rfl
  | cons a t =>
    rw [List.reverse_cons, getD_append_last]
    rfl

theorem getD_reverse_head (l : List (ℝ × ℝ)) (h : l ≠ []) :
    l.reverse.getD 0 (0, 0) = l.getD (l.length - 1) (0, 0) := by
  have hpos : 0 < l.length := List.length_pos.2 h
  rw [List.getD_eq_getElem?_getD, List.getD_eq_getElem?_getD,
    List.getElem?_reverse hpos, Nat.sub_zero]

theorem chainSum_reverse (l : List (ℝ × ℝ)) : chainSum l.reverse = -chainSum l := by
  induction l with
  | nil => simp [chainSum_nil]
  | cons a t ih =>
    cases t with
    | nil => simp [chainSum_single]
    | cons b t' =>
      rw [List.reverse_cons,
        chainSum_append ((b :: t').reverse) a (by simp),
        ih, getD_reverse_last (b :: t') (by simp)]
      rw [chainSum_cons_cons]
      have : (b :: t').getD 0 (0, 0) = b := rfl
      rw [this, shoelaceTerm_swap b a]
      ring

theorem shoelaceLoop_reverse (l : List (ℝ × ℝ)) :
    shoelaceLoop l.reverse = -shoelaceLoop l := by
  cases l with
  | nil => simp [shoelaceLoop]
  | cons a t =>
    have hne : (a :: t) ≠ ([] : List (ℝ × ℝ)) := by simp
    have hne' : (a :: t).reverse ≠ ([] : List (ℝ × ℝ)) := by simp
    rw [shoelaceLoop_closed _ hne', shoelaceLoop_closed _ hne,
      chainSum_reverse, getD_reverse_last _ hne, getD_reverse_head _ hne,
      shoelaceTerm_swap]
    ring

theorem foldl_area_eq (ps : List Polygon) (acc : ℝ) :
    ps.foldl (fun a p => a + approxPolyArea p.path) acc =
      acc + (ps.map fun p => approxPolyArea p.path).sum := by
  induction ps generalizing acc with
  | nil => simp
  | cons p ps ih => simp [List.foldl_cons, ih, add_assoc]

/-! ### Claim theorems -/

/-- Claim C3: for every polygon with fewer than 3 points, the estimator
returns an area of exactly 0. -/
theorem approxPolyArea_short (path : List GeoPoint) (h : path.length < 3) :
    approxPolyArea path = 0 := by
  rw [approxPolyArea, if_pos h]

/-- Witness for C3 at a concrete 2-point path. -/
theorem approxPolyArea_short_witness :
    ([⟨51.5074, -0.1278⟩, ⟨51.5075, -0.1278⟩] : List GeoPoint).length < 3 ∧
      approxPolyArea [⟨51.5074, -0.1278⟩, ⟨51.5075, -0.1278⟩] = 0 :=
  ⟨by decide, approxPolyArea_short _ (by decide)⟩

/-- Claim C2: panel count is `⌊area / 1.8⌋` and capacity is
`panels × 0.42`; in particular area 100 gives 55 panels and 23.1 kWp. -/
theorem estimate_constants :
    (∀ a : ℝ, estPanels a = ⌊a / 1.8⌋ ∧ estkWp a = (estPanels a : ℝ) * 0.42) ∧
      estPanels 100 = 55 ∧ estkWp 100 = 23.1 := by
  have h : estPanels 100 = 55 := by
    rw [estPanels, Int.floor_eq_iff]
    norm_num
  refine ⟨fun a => ⟨rfl, rfl⟩, h, ?_⟩
  rw [estkWp, h]; norm_num

/-- Claim C4: the total area is the sum of the independently computed
per-polygon areas; each polygon contributes its full area separately. -/
theorem totalArea_sum :
    (∀ polys : List Polygon,
        totalArea polys = (polys.map fun p => approxPolyArea p.path).sum) ∧
      ∀ (p : Polygon) (ps : List Polygon),
        totalArea (p :: ps) = approxPolyArea p.path + totalArea ps := by
  constructor
  · intro polys
    rw [totalArea, foldl_area_eq, zero_add]
  · intro p ps
    rw [totalArea, totalArea, List.foldl_cons, foldl_area_eq, foldl_area_eq]
    ring

theorem shoelaceTerm_toXY (p q : GeoPoint) :
    shoelaceTerm (toXY p) (toXY q) =
      specProjX p * specProjY q - specProjX q * specProjY p := rfl

theorem getD_map_toXY (path : List GeoPoint) (i : ℕ) (h : i < path.length) :
    (path.map toXY).getD i (0, 0) = toXY (path.getD i ⟨0, 0⟩) := by
  rw [List.getD_eq_getElem?_getD, List.getD_eq_getElem?_getD, List.getElem?_map,
    List.getElem?_eq_getElem h]
  rfl

/-- Claim C6: the estimator's area is invariant under cyclic rotation of
the point sequence and under reversal of the point order. -/
theorem approxPolyArea_invariant (path : List GeoPoint) (n : ℕ) :
    approxPolyArea (path.rotate n) = approxPolyArea path ∧
      approxPolyArea path.reverse = approxPolyArea path := by
  constructor
  · rw [approxPolyArea, approxPolyArea, List.length_rotate, List.map_rotate,
      shoelaceLoop_rotate]
  · rw [approxPolyArea, approxPolyArea, List.length_reverse, List.map_reverse,
      shoelaceLoop_reverse, abs_neg]

/-- Claim C1: for every polygon with at least 3 points, the estimator's
area is the absolute value of half the cyclic shoelace sum over the
points projected by `x = lng(rad)·6378137·cos(lat(rad))`,
`y = lat(rad)·6378137`. -/
theorem approxPolyArea_shoelace (path : List GeoPoint) (h : 3 ≤ path.length) :
    approxPolyArea path = |specShoelaceSum path| / 2 := by
  rw [approxPolyArea, if_neg (by omega)]
  have hsum : shoelaceLoop (path.map toXY) = specShoelaceSum path := by
    rw [shoelaceLoop, specShoelaceSum, List.length_map]
    refine Finset.sum_congr rfl fun i hi => ?_
    have hi' : i < path.length := Finset.mem_range.1 hi
    have hj : (i + 1) % path.length < path.length := Nat.mod_lt _ (by omega)
    rw [getD_map_toXY path i hi', getD_map_toXY path _ hj, shoelaceTerm_toXY]
  rw [hsum]

/-- Witness for C1 at the golden triangle. -/
theorem approxPolyArea_shoelace_witness :
    3 ≤ goldenTriangle.length ∧
      approxPolyArea goldenTriangle = |specShoelaceSum goldenTriangle| / 2 :=
  ⟨by decide, approxPolyArea_shoelace goldenTriangle (by decide)⟩

theorem shoelaceLoop_golden : shoelaceLoop (goldenTriangle.map toXY) =
    -((Real.pi / 180 * 6378137) ^ 2 * Real.cos (51.5074 * Real.pi / 180) / 10 ^ 8) := by
  have hlen : (goldenTriangle.map toXY).length = 3 := rfl
  rw [shoelaceLoop, hlen]
  rw [Finset.sum_range_succ, Finset.sum_range_succ, Finset.sum_range_succ,
    Finset.sum_range_zero]
  norm_num [shoelaceTerm, toXY, goldenTriangle, R]
  ring_nf

/-- Claim C9: the estimator is a pure function — equal polygon sets give
equal results — and the golden triangle always yields one specific
computed area, here in closed form. -/
theorem roofArea_deterministic :
    (∀ ps qs : List Polygon, ps = qs →
        aiRoofAreaFromPolys ps = aiRoofAreaFromPolys qs) ∧
      approxPolyArea goldenTriangle =
        (Real.pi / 180 * 6378137) ^ 2 * Real.cos (51.5074 * Real.pi / 180) /
          (2 * 10 ^ 8) := by
  constructor
  · exact fun ps qs h => by rw [h]
  · have hc : 0 ≤ Real.cos (51.5074 * Real.pi / 180) := by
      apply Real.cos_nonneg_of_mem_Icc
      constructor
      · nlinarith [Real.pi_pos]
      · nlinarith [Real.pi_pos]
    have hlen : ¬ goldenTriangle.length < 3 := by decide
    rw [approxPolyArea, if_neg hlen, shoelaceLoop_golden, abs_neg,
      abs_of_nonneg (by positivity)]
    ring

/-- Witness for C9: the theorem applied to two equal invocations on the
golden polygon set. -/
theorem roofArea_deterministic_witness :
    aiRoofAreaFromPolys [goldenPoly] = aiRoofAreaFromPolys [goldenPoly] :=
  roofArea_deterministic.1 [goldenPoly] [goldenPoly] rfl

/-- Claim C5: the empty polygon set logs the draw-a-shape prompt and no
numeric estimate; every nonempty set (even one measuring zero area) logs
the numeric estimate, so the empty case is distinguished by the explicit
check before any computation. -/
theorem aiRoofArea_empty_check :
    aiRoofAreaFromPolys [] = RoofAreaMsg.prompt ∧
      ∀ ps : List Polygon, ps ≠ [] →
        aiRoofAreaFromPolys ps =
            RoofAreaMsg.estimate (totalArea ps) (estPanels (totalArea ps))
              (estkWp (totalArea ps)) ∧
          aiRoofAreaFromPolys ps ≠ RoofAreaMsg.prompt := by
  constructor
  · rfl
  · intro ps hps
    have hlen : ¬ ps.length = 0 := fun h => hps (List.length_eq_zero.1 h)
    rw [aiRoofAreaFromPolys, if_neg hlen]
    exact ⟨rfl, by simp⟩

/-- Witness for C5 at a one-element polygon set of zero area. -/
theorem aiRoofArea_empty_check_witness :
    ([emptyPoly] : List Polygon) ≠ [] ∧
      (aiRoofAreaFromPolys [emptyPoly] =
          RoofAreaMsg.estimate (totalArea [emptyPoly])
            (estPanels (totalArea [emptyPoly])) (estkWp (totalArea [emptyPoly])) ∧
        aiRoofAreaFromPolys [emptyPoly] ≠ RoofAreaMsg.prompt) :=
  ⟨List.cons_ne_nil _ _, aiRoofArea_empty_check.2 [emptyPoly] (List.cons_ne_nil _ _)⟩

/-- Counterexample to C7 as stated: `createCard` performs no uniqueness
check, and a later `Math.random()` draw can repeat a string ("abcdef")
already used as an identifier in the store, so the new record's
identifier is not distinct from every identifier already present. -/
theorem createCard_id_collision :
    (createCard "abcdef" Mode.commercial).id ∈ collidedStore.map Card.id := by
  simp [collidedStore, createCard]

/-- Claim C7 (amended): when the generated identifier differs from every
identifier already in the store, the add-record operation prepends a
record with that fresh unique identifier, the default field values for
the current mode, and initial stage `lead`, the first stage of `STAGES`. -/
theorem addRecord_spec (cards : List Card) (rndId : String) (mode : Mode)
    (h : rndId ∉ cards.map Card.id) :
    addRecord cards rndId mode = createCard rndId mode :: cards ∧
      createCard rndId mode =
        { id := rndId
          title := if mode = Mode.domestic then "New Residence" else "New Business"
          mode := mode
          kWp := if mode = Mode.domestic then 4 else 50
          contact := ""
          phone := ""
          email := ""
          address := ""
          stage := StageId.lead } ∧
      (∀ c ∈ cards, c.id ≠ (createCard rndId mode).id) ∧
      (STAGES.map StageInfo.id)[0]? = some (createCard rndId mode).stage := by
  refine ⟨rfl, rfl, ?_, rfl⟩
  intro c hc heq
  exact h (List.mem_map.2 ⟨c, hc, heq⟩)

/-- Witness for the amended C7 on the sample store with a non-colliding
identifier. -/
theorem addRecord_spec_witness :
    "zzz999" ∉ SAMPLE.map Card.id ∧
      (addRecord SAMPLE "zzz999" Mode.domestic =
          createCard "zzz999" Mode.domestic :: SAMPLE ∧
        createCard "zzz999" Mode.domestic =
          { id := "zzz999"
            title := if Mode.domestic = Mode.domestic then "New Residence" else "New Business"
            mode := Mode.domestic
            kWp := if Mode.domestic = Mode.domestic then 4 else 50
            contact := ""
            phone := ""
            email := ""
            address := ""
            stage := StageId.lead } ∧
        (∀ c ∈ SAMPLE, c.id ≠ (createCard "zzz999" Mode.domestic).id) ∧
        (STAGES.map StageInfo.id)[0]? = some (createCard "zzz999" Mode.domestic).stage) :=
  ⟨by decide, addRecord_spec SAMPLE "zzz999" Mode.domestic (by decide)⟩

/-- Claim C8: `moveCard` keeps the store's length and rewrites each card
to itself with only the stage replaced — by any target stage, with no
forward-only validation — when its identifier matches, leaving every
other field and every non-matching card unchanged. -/
theorem moveCard_spec (cards : List Card) (cardId : String) (stageId : StageId) :
    (moveCard cards cardId stageId).length = cards.length ∧
      ∀ (i : ℕ) (c : Card), cards[i]? = some c →
        (moveCard cards cardId stageId)[i]? =
          some { c with stage := if c.id = cardId then stageId else c.stage } := by
  constructor
  · simp [moveCard]
  · intro i c hc
    rw [moveCard, List.getElem?_map, hc, Option.map_some']
    by_cases h : c.id = cardId
    · rw [if_pos h, if_pos h]
    · rw [if_neg h, if_neg h]

/-- Witness for C8: moving the second sample card (still in `survey`)
directly to `commissioned`. -/
theorem moveCard_spec_witness :
    SAMPLE[1]? = some sample2 ∧
      (moveCard SAMPLE "c2" StageId.commissioned)[1]? =
        some { sample2 with
          stage := if sample2.id = "c2" then StageId.commissioned else sample2.stage } :=
  ⟨rfl, (moveCard_spec SAMPLE "c2" StageId.commissioned).2 1 sample2 rfl⟩

/-- Claim C10: `updateSelected` merges the patch last-write-wins into
every card matching the selected identifier, and a patch carrying an
`id` value replaces the selected record's identifier. -/
theorem updateSelected_id_mutable (cards : List Card) (sid : String) (sel : Card)
    (patch : CardPatch) (newId : String)
    (hfind : cards.find? (fun c => c.id == sid) = some sel)
    (hid : patch.id = some newId) :
    updateSelected cards (some sid) patch =
        cards.map (fun c => if c.id = sel.id then applyPatch c patch else c) ∧
      (applyPatch sel patch).id = newId := by
  constructor
  · simp only [updateSelected, Option.some_bind, hfind]
  · simp [applyPatch, hid]

/-- Witness for C10: patching the selected sample card with a new
identifier value. -/
theorem updateSelected_id_mutable_witness :
    SAMPLE.find? (fun c => c.id == "c1") = some sample1 ∧
      ({ id := some "hijack" } : CardPatch).id = some "hijack" ∧
      (updateSelected SAMPLE (some "c1") { id := some "hijack" } =
          SAMPLE.map
            (fun c => if c.id = sample1.id then applyPatch c { id := some "hijack" } else c) ∧
        (applyPatch sample1 { id := some "hijack" }).id = "hijack") :=
  ⟨rfl, rfl,
    updateSelected_id_mutable SAMPLE "c1" sample1 { id := some "hijack" } "hijack" rfl rfl⟩
